import Mathlib

/-!
Verification of the concurrent download engine of `onedrive-album-download`
(`onedrive_downloader/downloader.py` and `onedrive_downloader/utils.py`).

Python strings are modelled as `List Char` (a Python `str` is a sequence of
code points), Python `int` as `Int`/`Nat`, the destination file of a unit as
`Option Nat` (`none` = no file, `some n` = a file of `n` bytes), and the
behaviour of the network on each GET attempt as an oracle `Nat → GetEvent`.
-/

namespace OneDriveDL

/-! ### Filename sanitizer (`onedrive_downloader/utils.py`, `sanitize_filename`) -/

/-- The regex character class `[<>:"/\\|?*\x00-\x1f]` used by `re.sub` in
`sanitize_filename`: the nine forbidden filename characters together with the
control characters, code points 0 to 31. -/
def isInvalidChar (c : Char) : Bool :=
  c == '<' || c == '>' || c == ':' || c == '"' || c == '/' || c == '\\' ||
  c == '|' || c == '?' || c == '*' || decide (c.toNat ≤ 31)

/-- One character of `re.sub(invalid_chars, '_', filename)`: a matching
character is replaced by `_`, every other character is kept. -/
def replaceInvalid (c : Char) : Char :=
  if isInvalidChar c then '_' else c

/-- The strip set of the Python strip call in `sanitize_filename`: a dot or
a space. -/
def isStripChar (c : Char) : Bool := c == '.' || c == ' '

/-- Python strip with the characters dot and space: remove leading and
trailing dots and spaces. -/
def pyStrip (l : List Char) : List Char :=
  List.rdropWhile isStripChar (List.dropWhile isStripChar l)

/-- Python slicing `l[:k]` for a possibly negative bound `k`:
`l[:k]` keeps the elements before index `k`, counted from the end when
`k < 0` (so `l[:k] = []` when `len l + k ≤ 0`). -/
def pySliceTo (k : Int) (l : List Char) : List Char :=
  if 0 ≤ k then l.take k.toNat else l.take (l.length - k.natAbs)

/-- Model of `pathlib.PurePath.name`: the final path component, i.e. the part after the
last `/`. (`sanitize_filename` only applies it to strings without `/`, since
`/` has already been replaced by `_`.) -/
def pathName (l : List Char) : List Char :=
  (l.reverse.takeWhile (fun c => !(c == '/'))).reverse

/-- Python rfind of ('.'): the index of the last dot, `-1` when there is
none. -/
def rfindDot (l : List Char) : Int :=
  match l.reverse.findIdx? (fun c => c == '.') with
  | none => -1
  | some j => (l.length : Int) - 1 - j

/-- Model of `pathlib.PurePath.suffix`: the extension `name[i:]` when the last dot sits
at an index `i` with `0 < i < len(name) - 1`, and the empty string otherwise. -/
def pathSuffix (l : List Char) : List Char :=
  let nm := pathName l
  let i := rfindDot nm
  if 0 < i ∧ i < (nm.length : Int) - 1 then nm.drop i.toNat else []

/-- Model of `pathlib.PurePath.stem`: the slice `name[:i]` when the last dot sits at an index `i`
with `0 < i < len(name) - 1`, and the whole name otherwise. -/
def pathStem (l : List Char) : List Char :=
  let nm := pathName l
  let i := rfindDot nm
  if 0 < i ∧ i < (nm.length : Int) - 1 then nm.take i.toNat else nm

/-- Function `sanitize_filename` from `utils.py`, on the characters of the string:
replace the invalid characters by `_`, strip leading and trailing `.` and
space, truncate the stem when the length exceeds 255 (`name[:255 - len(ext)]
+ ext`), and fall back to `unnamed` when the result is empty. -/
def sanitize_filename (filename : List Char) : List Char :=
  let step1 := filename.map replaceInvalid
  let step2 := pyStrip step1
  let step3 :=
    if 255 < step2.length then
      pySliceTo (255 - (pathSuffix step2).length) (pathStem step2) ++ pathSuffix step2
    else step2
  if step3 = [] then "unnamed".toList else step3

/-! ### Size formatter (`utils.py`, `format_size`)

The Python float `size` in `format_size` always holds exactly the value
`size_bytes / 1024 ^ unit_index` (a binary float divided by 1024 is scaled by
a power of two, which is exact), so the loop state is modelled by the unit
index, and the value of `size` by that exact fraction. -/

/-- Round `num / den` (with `den > 0`) to the nearest integer, ties to the
even neighbour: the rounding performed by the Python .2f format on the
exact value. -/
def roundHalfEven (num den : Nat) : Nat :=
  let f := num / den
  let r := num % den
  if 2 * r < den then f
  else if den < 2 * r then f + 1
  else if f % 2 = 0 then f else f + 1

/-- Python two-decimal fixed-point rendering (format .2f) of the exact
fraction `num / den`, `den > 0`:
the integer part, a dot, and exactly two fractional digits (the hundredths,
rounded half to even). -/
def format2f (num den : Nat) : String :=
  let c := roundHalfEven (100 * num) den
  toString (c / 100) ++ "." ++
    String.mk [Nat.digitChar (c / 10 % 10), Nat.digitChar (c % 10)]

/-- List `units` of `format_size`. -/
def sizeUnits : List String := ["B", "KB", "MB", "GB", "TB"]

/-- The `while size >= 1024 and unit_index < len(units) - 1` loop of
`format_size`. The fuel argument equals `len(units) - 1 - unit_index`, so the
guard `unit_index < len(units) - 1` is exactly `fuel > 0`; the guard
`size >= 1024`, with `size = size_bytes / 1024 ^ idx` exact, is
`1024 ^ (idx + 1) <= size_bytes`. -/
def sizeLoop (size_bytes : Nat) : Nat → Nat → Nat
  | 0, idx => idx
  | fuel + 1, idx =>
      if 1024 ^ (idx + 1) ≤ size_bytes then sizeLoop size_bytes fuel (idx + 1)
      else idx

/-- Function `format_size` from `utils.py`. In the `unit_index = 0` branch the code
prints `int(size)` where `size` is exactly `size_bytes`; otherwise it prints
`f"{size:.2f}"` where `size` is exactly `size_bytes / 1024 ^ unit_index`. -/
def format_size (size_bytes : Nat) : String :=
  if size_bytes = 0 then "0 B"
  else
    let idx := sizeLoop size_bytes 4 0
    if idx = 0 then toString size_bytes ++ " " ++ sizeUnits.getD idx "B"
    else format2f size_bytes (1024 ^ idx) ++ " " ++ sizeUnits.getD idx "B"

/-! ### Download unit (`downloader.py`, `ImageDownloader.download_image`)

One download unit owns the destination file `output_dir / sanitize_filename
filename`, modelled as `Option Nat` (`none` = the file does not exist,
`some n` = a file of `n` bytes is on disk).  What the network does on the
`i`-th GET attempt is an oracle `events : Nat → GetEvent`. -/

/-- Class `DownloadResult` from `downloader.py`, with the constructor defaults
`error=None`, `size=0`, `skipped=False`. -/
structure DownloadResult where
  filename : List Char
  success : Bool
  error : Option String := none
  size : Nat := 0
  skipped : Bool := false
deriving Repr, DecidableEq

/-- Outcome of one GET attempt (`session.get`), as seen by the `try` block of
`download_image`:
* `ok size` — `raise_for_status` passed and the body streamed to the file
  completely, writing `size` bytes;
* `timeout written` — `asyncio.TimeoutError` was raised; `written = none` if
  the attempt failed before the destination file was opened, `some w` if the
  file had been opened (truncating) and `w` bytes written so far;
* `err name msg written` — some other exception of type `name` with message
  `msg` was raised, `written` as above. -/
inductive GetEvent where
  | ok (size : Nat)
  | timeout (written : Option Nat)
  | err (name msg : String) (written : Option Nat)
deriving Repr, DecidableEq

/-- Destination-file state after a failed attempt: opening the file in
write-binary mode (wb) truncates it, so an attempt that wrote `w` bytes leaves `some w`; an
attempt that never opened the file leaves the previous state. -/
def afterAttempt (fs : Option Nat) (written : Option Nat) : Option Nat :=
  match written with
  | none => fs
  | some w => some w

/-- Everything observable about one run of `download_image`: the returned
`DownloadResult`, the destination-file state when the unit finishes, the
number of GET attempts issued, the backoff sleeps (in seconds, in order), and
the arguments of the `progress_callback` invocations (in order). -/
structure UnitRun where
  result : DownloadResult
  finalFile : Option Nat
  attempts : Nat
  sleeps : List Nat
  progressCalls : List DownloadResult
deriving Repr, DecidableEq

/-- Retry loop `for attempt in range(self.max_retries)` of `download_image`
(lines 89–154 of `downloader.py`), including the fall-through "Should never
reach here" branch after the loop.  `fuel` is the number of remaining
iterations (`maxRetries - i`), `i` the 0-based attempt index, `fs` the
destination-file state, `sleeps` the backoff sleeps so far.  As in the code:
* on success, return a successful result of the accumulated size;
* on `asyncio.TimeoutError`, sleep `2 ** attempt` and retry if
  `attempt < max_retries - 1`, else return a failed result — the destination
  file is *not* removed on this path;
* on any other exception, sleep and retry likewise, else delete the partially
  written file (`output_path.unlink()`) and return a failed result. -/
def retry_loop (maxRetries : Nat) (events : Nat → GetEvent) (safe : List Char) :
    Nat → Nat → Option Nat → List Nat → UnitRun
  | 0, i, fs, sleeps =>
      let result : DownloadResult :=
        { filename := safe, success := false, error := some "Unknown error" }
      { result := result, finalFile := fs, attempts := i, sleeps := sleeps,
        progressCalls := [result] }
  | fuel + 1, i, fs, sleeps =>
      match events i with
      | .ok size =>
          let result : DownloadResult :=
            { filename := safe, success := true, size := size }
          { result := result, finalFile := some size, attempts := i + 1,
            sleeps := sleeps, progressCalls := [result] }
      | .timeout written =>
          let fs2 := afterAttempt fs written
          let errMsg :=
            "Timeout (attempt " ++ toString (i + 1) ++ "/" ++
              toString maxRetries ++ ")"
          if i + 1 < maxRetries then
            retry_loop maxRetries events safe fuel (i + 1) fs2 (sleeps ++ [2 ^ i])
          else
            let result : DownloadResult :=
              { filename := safe, success := false, error := some errMsg }
            { result := result, finalFile := fs2, attempts := i + 1,
              sleeps := sleeps, progressCalls := [result] }
      | .err name msg written =>
          let fs2 := afterAttempt fs written
          let errMsg := name ++ ": " ++ msg
          if i + 1 < maxRetries then
            retry_loop maxRetries events safe fuel (i + 1) fs2 (sleeps ++ [2 ^ i])
          else
            let result : DownloadResult :=
              { filename := safe, success := false, error := some errMsg }
            { result := result, finalFile := none, attempts := i + 1,
              sleeps := sleeps, progressCalls := [result] }

/-- Method `ImageDownloader.download_image`: sanitize the filename, return a skipped
result carrying the on-disk size if the destination file exists (before any
network traffic and before touching the semaphore), otherwise run the retry
loop starting at attempt 0 on a nonexistent file. -/
def download_image (maxRetries : Nat) (filename : List Char)
    (file : Option Nat) (events : Nat → GetEvent) : UnitRun :=
  let safe := sanitize_filename filename
  match file with
  | some n =>
      let result : DownloadResult :=
        { filename := safe, success := true, size := n, skipped := true }
      { result := result, finalFile := some n, attempts := 0, sleeps := [],
        progressCalls := [result] }
  | none => retry_loop maxRetries events safe maxRetries 0 none []

/-! ### Orchestrator (`downloader.py`, `ImageDownloader.download_all`) -/

/-- Tuple type `ImageItem` from `models.py`: the `(filename, url, size, mime_type)`
tuples consumed by `download_all`. -/
structure ImageItem where
  filename : List Char
  download_url : String
  size : Nat
  mime_type : String

/-- Method `ImageDownloader.download_all`: one `download_image` task per entry, all
awaited with `asyncio.gather(*tasks)`, which returns the results in the order
the tasks were created, i.e. in input order — independently of the order in
which the coroutines complete.  `fs` gives the initial destination-file state
per sanitized filename, `events i` is the network oracle of entry `i`. -/
def download_all (maxRetries : Nat) (entries : List ImageItem)
    (fs : List Char → Option Nat) (events : Nat → Nat → GetEvent) :
    List UnitRun :=
  entries.enum.map fun p =>
    download_image maxRetries p.2.filename
      (fs (sanitize_filename p.2.filename)) (events p.1)

/-- Stream of `progress_callback` invocations of a `download_all` run, in
completion order: for a completion order `completion` (the indices of the
units in the order they finish), the stream of callback arguments. -/
def progress_log (maxRetries : Nat) (entries : List ImageItem)
    (fs : List Char → Option Nat) (events : Nat → Nat → GetEvent)
    (completion : List Nat) : List DownloadResult :=
  completion.filterMap fun i =>
    ((download_all maxRetries entries fs events).get? i).map (·.result)

/-! ### Statistics (`downloader.py`, `ImageDownloader.get_stats`) -/

/-- The statistics dictionary returned by `get_stats`.  The counts are Python
`int`s, hence `Int` (`downloaded` and `failed` are differences). -/
structure Stats where
  total : Int
  successful : Int
  downloaded : Int
  skipped : Int
  failed : Int
  total_size : Nat
  total_size_formatted : String
deriving Repr, DecidableEq

/-- Method `ImageDownloader.get_stats`: `total = len(results)`, `successful` and
`skipped` count the results with the respective flag, `downloaded =
successful - skipped`, `failed = total - successful`, and `total_size` sums
`r.size` over the successful results. -/
def get_stats (results : List DownloadResult) : Stats :=
  let total : Int := results.length
  let successful : Int := (results.filter (·.success)).length
  let skipped : Int := (results.filter (·.skipped)).length
  let total_size : Nat := ((results.filter (·.success)).map (·.size)).sum
  { total := total, successful := successful,
    downloaded := successful - skipped, skipped := skipped,
    failed := total - successful, total_size := total_size,
    total_size_formatted := format_size total_size }

/-! ### Concurrency cap (`downloader.py` lines 86–91 and 167–171)

`download_all` creates `asyncio.Semaphore(self.concurrent)` and each unit
enters its retry loop only inside `async with semaphore`.  The phases a unit
can be in are modelled below; a scheduler step moves one unit between phases,
and `asyncio.Semaphore` semantics admits a waiter only while fewer than `cap`
holders exist. -/

/-- Phase of one download unit during a `download_all` run:
* `idle` — task created, existence check not yet performed;
* `waiting` — destination file absent, suspended on `async with semaphore`;
* `transferring` — semaphore held, inside the retry loop (network reads,
  file writes and backoff sleeps);
* `done` — result produced (skip, success or failure), semaphore released. -/
inductive UnitPhase where
  | idle
  | waiting
  | transferring
  | done
deriving Repr, DecidableEq

/-- One cooperative-scheduler step of the pool, on the multiset of unit
phases:
* `skip` — a unit whose file exists finishes directly (never touches the
  semaphore);
* `admitQueue` — a unit passes the existence check and suspends on the
  semaphore;
* `acquire` — `asyncio.Semaphore(cap)` admits a waiting unit, possible only
  while fewer than `cap` units hold it;
* `release` — a transferring unit finishes and releases the semaphore. -/
inductive PoolStep (cap : Nat) :
    Multiset UnitPhase → Multiset UnitPhase → Prop where
  | skip (rest : Multiset UnitPhase) :
      PoolStep cap (UnitPhase.idle ::ₘ rest) (UnitPhase.done ::ₘ rest)
  | admitQueue (rest : Multiset UnitPhase) :
      PoolStep cap (UnitPhase.idle ::ₘ rest) (UnitPhase.waiting ::ₘ rest)
  | acquire (rest : Multiset UnitPhase)
      (hcap : Multiset.count UnitPhase.transferring rest < cap) :
      PoolStep cap (UnitPhase.waiting ::ₘ rest)
        (UnitPhase.transferring ::ₘ rest)
  | release (rest : Multiset UnitPhase) :
      PoolStep cap (UnitPhase.transferring ::ₘ rest) (UnitPhase.done ::ₘ rest)

/-- States of the pool reachable from the start of a `download_all` run over
`n` entries (all units created, none yet scheduled). -/
def PoolReachable (cap n : Nat) (s : Multiset UnitPhase) : Prop :=
  Relation.ReflTransGen (PoolStep cap) (Multiset.replicate n UnitPhase.idle) s

end OneDriveDL

namespace OneDriveDL

/-! ## Claim theorems -/

/-- C5: for every list of download outcomes `get_stats` satisfies
`downloaded + skipped + failed = total` and `downloaded = successful -
skipped`; on the list [Success(100), Skipped(50), Failed] it yields total 3,
downloaded 1, skipped 1, failed 1 and 150 total bytes. -/
theorem get_stats_counts (results : List DownloadResult) :
    ((get_stats results).downloaded + (get_stats results).skipped +
        (get_stats results).failed = (get_stats results).total ∧
      (get_stats results).downloaded =
        (get_stats results).successful - (get_stats results).skipped) ∧
    get_stats
        [{ filename := ['a'], success := true, size := 100 },
         { filename := ['b'], success := true, size := 50, skipped := true },
         { filename := ['c'], success := false, error := some "boom" }] =
      { total := 3, successful := 2, downloaded := 1, skipped := 1,
        failed := 1, total_size := 150, total_size_formatted := "150 B" } := by
  refine ⟨⟨?_, rfl⟩, by decide⟩
  simp only [get_stats]
  omega

/-- C9: with `max_retries = 0` and no pre-existing destination file,
`download_image` falls through the empty retry loop: no GET attempt is made,
there is no sleep, the result is failed with error "Unknown error", size 0
and skipped false, and the progress callback is invoked exactly once with
that result. -/
theorem download_image_zero_retries (f : List Char) (events : Nat → GetEvent) :
    download_image 0 f none events =
      { result := { filename := sanitize_filename f, success := false,
                    error := some "Unknown error", size := 0, skipped := false },
        finalFile := none, attempts := 0, sleeps := [],
        progressCalls :=
          [{ filename := sanitize_filename f, success := false,
             error := some "Unknown error", size := 0, skipped := false }] } :=
  rfl

/-- C8: in every state reachable during a `download_all` run, the number of
units in the `transferring` phase — holding the semaphore, past the
existence check and inside the retry loop — never exceeds the semaphore
capacity `cap`; units not yet admitted stay in `waiting`. -/
theorem concurrency_cap (cap n : Nat) (s : Multiset UnitPhase)
    (h : PoolReachable cap n s) :
    Multiset.count UnitPhase.transferring s ≤ cap := by
  induction h with
  | refl =>
      rw [Multiset.count_replicate,
        if_neg (by decide : ¬ (UnitPhase.idle = UnitPhase.transferring))]
      exact Nat.zero_le cap
  | tail _ hstep ih =>
      cases hstep with
      | skip rest =>
          rw [Multiset.count_cons_of_ne (by decide)] at ih ⊢
          exact ih
      | admitQueue rest =>
          rw [Multiset.count_cons_of_ne (by decide)] at ih ⊢
          exact ih
      | acquire rest hcap =>
          rw [Multiset.count_cons_self]
          omega
      | release rest =>
          rw [Multiset.count_cons_self] at ih
          rw [Multiset.count_cons_of_ne (by decide)]
          omega

/-- Witness for C8: the initial state of a run with capacity 2 and three
units is reachable, and its transferring count is within the cap. -/
theorem concurrency_cap_witness :
    Multiset.count UnitPhase.transferring
      (Multiset.replicate 3 UnitPhase.idle) ≤ 2 :=
  concurrency_cap 2 3 _ Relation.ReflTransGen.refl

/-- C3: a unit whose destination file already exists returns a skipped
result carrying the on-disk size of the existing file, makes no GET attempt, and
invokes the progress callback once; consequently, in a `download_all` run,
every entry whose sanitized destination file already exists yields a skipped
outcome with that size and no network call. -/
theorem skip_existing_file :
    (∀ (maxRetries : Nat) (f : List Char) (events : Nat → GetEvent) (n : Nat),
        download_image maxRetries f (some n) events =
          { result := { filename := sanitize_filename f, success := true,
                        size := n, skipped := true },
            finalFile := some n, attempts := 0, sleeps := [],
            progressCalls :=
              [{ filename := sanitize_filename f, success := true,
                 size := n, skipped := true }] }) ∧
    (∀ (maxRetries : Nat) (entries : List ImageItem)
        (fs : List Char → Option Nat) (events : Nat → Nat → GetEvent)
        (i : Nat) (e : ImageItem) (n : Nat),
        entries.get? i = some e →
        fs (sanitize_filename e.filename) = some n →
        ∃ run, (download_all maxRetries entries fs events).get? i = some run ∧
          run.result.skipped = true ∧ run.result.size = n ∧ run.attempts = 0) := by
  constructor
  · intro mr f ev n
    rfl
  · intro mr entries fs ev i e n he hfs
    have he2 : entries[i]? = some e := by simpa using he
    refine ⟨download_image mr e.filename (fs (sanitize_filename e.filename))
      (ev i), ?_, ?_, ?_, ?_⟩
    · simp [download_all, List.getElem?_map, List.getElem?_enum]
      exact ⟨e, he2, rfl⟩
    · rw [hfs]
      rfl
    · rw [hfs]
      rfl
    · rw [hfs]
      rfl

/-- Witness for C3: one entry, destination file of 7 bytes already on disk. -/
theorem skip_existing_file_witness :
    ∃ run,
      (download_all 3
            [{ filename := "a.jpg".toList, download_url := "u", size := 9,
               mime_type := "image/jpeg" }]
            (fun _ => some 7) (fun _ _ => GetEvent.ok 1)).get? 0 = some run ∧
        run.result.skipped = true ∧ run.result.size = 7 ∧ run.attempts = 0 :=
  skip_existing_file.2 3 _ _ _ 0 _ 7 rfl rfl

/-- C6: `download_all` returns one outcome per entry and the i-th returned
outcome is the outcome of the unit of the i-th entry — input order is preserved,
as `asyncio.gather` returns results in task-creation order — while the
progress-callback stream may follow any completion order: permuted
completion orders give permuted callback streams over the same returned
list. -/
theorem download_all_order (maxRetries : Nat) (entries : List ImageItem)
    (fs : List Char → Option Nat) (events : Nat → Nat → GetEvent) :
    (download_all maxRetries entries fs events).length = entries.length ∧
    (∀ (i : Nat) (e : ImageItem), entries.get? i = some e →
      (download_all maxRetries entries fs events).get? i =
        some (download_image maxRetries e.filename
          (fs (sanitize_filename e.filename)) (events i))) ∧
    (∀ c1 c2 : List Nat, c1.Perm c2 →
      (progress_log maxRetries entries fs events c1).Perm
        (progress_log maxRetries entries fs events c2)) := by
  refine ⟨?_, ?_, ?_⟩
  · simp [download_all]
  · intro i e he
    have he2 : entries[i]? = some e := by simpa using he
    simp [download_all, List.getElem?_map, List.getElem?_enum]
    exact ⟨e, he2, rfl⟩
  · intro c1 c2 hperm
    exact hperm.filterMap _

/-- Witness for C6: a single-entry run, checked at index 0, and a concrete
transposed completion order. -/
theorem download_all_order_witness :
    ((download_all 1
          [{ filename := "b.png".toList, download_url := "u", size := 3,
             mime_type := "image/png" }]
          (fun _ => none) (fun _ _ => GetEvent.ok 3)).get? 0 =
        some (download_image 1 "b.png".toList none (fun _ => GetEvent.ok 3))) ∧
      (progress_log 1
          [{ filename := "b.png".toList, download_url := "u", size := 3,
             mime_type := "image/png" }]
          (fun _ => none) (fun _ _ => GetEvent.ok 3) [0, 1]).Perm
        (progress_log 1
          [{ filename := "b.png".toList, download_url := "u", size := 3,
             mime_type := "image/png" }]
          (fun _ => none) (fun _ _ => GetEvent.ok 3) [1, 0]) :=
  ⟨(download_all_order 1
        [{ filename := "b.png".toList, download_url := "u", size := 3,
           mime_type := "image/png" }]
        (fun _ => none) (fun _ _ => GetEvent.ok 3)).2.1 0
      { filename := "b.png".toList, download_url := "u", size := 3,
        mime_type := "image/png" } rfl,
    (download_all_order 1
        [{ filename := "b.png".toList, download_url := "u", size := 3,
           mime_type := "image/png" }]
        (fun _ => none) (fun _ _ => GetEvent.ok 3)).2.2 [0, 1] [1, 0]
      (by decide)⟩

/-- Unfolding of one timed-out attempt of the retry loop: on
`asyncio.TimeoutError` the unit sleeps `2 ** attempt` seconds and retries
while attempts remain, and otherwise returns a failed result; the
destination file is left as the attempt left it (no `unlink` on this path). -/
theorem retry_loop_timeout (mr : Nat) (events : Nat → GetEvent)
    (safe : List Char) (fuel i : Nat) (fs : Option Nat) (sleeps : List Nat)
    (w : Option Nat) (h : events i = GetEvent.timeout w) :
    retry_loop mr events safe (fuel + 1) i fs sleeps =
      if i + 1 < mr then
        retry_loop mr events safe fuel (i + 1) (afterAttempt fs w)
          (sleeps ++ [2 ^ i])
      else
        { result :=
            { filename := safe, success := false,
              error := some ("Timeout (attempt " ++ toString (i + 1) ++
                "/" ++ toString mr ++ ")") },
          finalFile := afterAttempt fs w, attempts := i + 1, sleeps := sleeps,
          progressCalls :=
            [{ filename := safe, success := false,
               error := some ("Timeout (attempt " ++ toString (i + 1) ++
                 "/" ++ toString mr ++ ")") }] } := by
  rw [retry_loop, h]

/-- C1 counterexample: with `maxRetries = 3`, no pre-existing destination
file, and every GET attempt a timeout that had already streamed 10 bytes to
the file, the unit fails after 3 attempts with backoff sleeps of 1s and 2s,
but the partially-written destination file is NOT deleted: a 10-byte file
remains on disk, contradicting the claim. -/
theorem download_image_timeout_keeps_partial_file :
    (download_image 3 "photo.jpg".toList none
        (fun _ => GetEvent.timeout (some 10))).result.success = false ∧
    (download_image 3 "photo.jpg".toList none
        (fun _ => GetEvent.timeout (some 10))).attempts = 3 ∧
    (download_image 3 "photo.jpg".toList none
        (fun _ => GetEvent.timeout (some 10))).sleeps = [1, 2] ∧
    (download_image 3 "photo.jpg".toList none
        (fun _ => GetEvent.timeout (some 10))).finalFile = some 10 := by
  decide

/-- C1 (amended): a unit whose destination file does not exist and whose
every GET attempt times out performs, with `maxRetries = 3`, exactly 3
attempts, sleeps `2 ^ attemptIndex` seconds between consecutive attempts (1s
then 2s), returns a failed outcome with the timeout error description, and
invokes the progress callback exactly once — but the timeout handler does
not delete the destination file, so a partial write of the last attempt
remains on disk. -/
theorem download_image_all_timeouts (f : List Char) (events : Nat → GetEvent)
    (w0 w1 : Option Nat) (w2 : Nat)
    (h0 : events 0 = GetEvent.timeout w0)
    (h1 : events 1 = GetEvent.timeout w1)
    (h2 : events 2 = GetEvent.timeout (some w2)) :
    (download_image 3 f none events).attempts = 3 ∧
    (download_image 3 f none events).sleeps = [1, 2] ∧
    (download_image 3 f none events).result.success = false ∧
    (download_image 3 f none events).result.skipped = false ∧
    (download_image 3 f none events).result.error =
      some "Timeout (attempt 3/3)" ∧
    (download_image 3 f none events).finalFile = some w2 ∧
    (download_image 3 f none events).progressCalls =
      [(download_image 3 f none events).result] := by
  have key : download_image 3 f none events =
      { result :=
          { filename := sanitize_filename f, success := false,
            error := some "Timeout (attempt 3/3)" },
        finalFile := some w2, attempts := 3, sleeps := [1, 2],
        progressCalls :=
          [{ filename := sanitize_filename f, success := false,
             error := some "Timeout (attempt 3/3)" }] } := by
    show retry_loop 3 events (sanitize_filename f) (2 + 1) 0 none [] = _
    rw [retry_loop_timeout 3 events (sanitize_filename f) 2 0 none [] w0 h0,
      if_pos (by norm_num : (0 : Nat) + 1 < 3)]
    show retry_loop 3 events (sanitize_filename f) (1 + 1) 1 _ _ = _
    rw [retry_loop_timeout 3 events (sanitize_filename f) 1 1 _ _ w1 h1,
      if_pos (by norm_num : (1 : Nat) + 1 < 3)]
    show retry_loop 3 events (sanitize_filename f) (0 + 1) 2 _ _ = _
    rw [retry_loop_timeout 3 events (sanitize_filename f) 0 2 _ _ (some w2) h2,
      if_neg (by norm_num : ¬ ((2 : Nat) + 1 < 3))]
    rfl
  rw [key]
  exact ⟨rfl, rfl, rfl, rfl, rfl, rfl, rfl⟩

/-- Witness for C1 (amended): every attempt times out after writing 10
bytes. -/
theorem download_image_all_timeouts_witness :
    (download_image 3 "photo.jpg".toList none
        (fun _ => GetEvent.timeout (some 10))).attempts = 3 ∧
    (download_image 3 "photo.jpg".toList none
        (fun _ => GetEvent.timeout (some 10))).sleeps = [1, 2] ∧
    (download_image 3 "photo.jpg".toList none
        (fun _ => GetEvent.timeout (some 10))).result.success = false ∧
    (download_image 3 "photo.jpg".toList none
        (fun _ => GetEvent.timeout (some 10))).result.skipped = false ∧
    (download_image 3 "photo.jpg".toList none
        (fun _ => GetEvent.timeout (some 10))).result.error =
      some "Timeout (attempt 3/3)" ∧
    (download_image 3 "photo.jpg".toList none
        (fun _ => GetEvent.timeout (some 10))).finalFile = some 10 ∧
    (download_image 3 "photo.jpg".toList none
        (fun _ => GetEvent.timeout (some 10))).progressCalls =
      [(download_image 3 "photo.jpg".toList none
          (fun _ => GetEvent.timeout (some 10))).result] :=
  download_image_all_timeouts "photo.jpg".toList
    (fun _ => GetEvent.timeout (some 10)) (some 10) (some 10) 10 rfl rfl rfl

end OneDriveDL

set_option maxRecDepth 8000

namespace OneDriveDL

/-- C2: the claimed 255-character bound fails — `sanitize_filename` keeps the
whole extension when truncating (`name[:255 - len(ext)] + ext`), so an input
whose extension alone exceeds 255 characters yields an output longer than
255 (contradicting the comment in the code itself, Limit length to 255
characters):
on `"a." ++ 300 × 'x'` the output has 301 characters. -/
theorem sanitize_filename_length_bound_fails :
    255 < (sanitize_filename ('a' :: '.' :: List.replicate 300 'x')).length ∧
    (sanitize_filename ('a' :: '.' :: List.replicate 300 'x')).length = 301 := by
  decide

/-- C4 counterexample: `sanitize_filename` is not idempotent — on
`"ab." ++ 254 × 'c'` the truncation step empties the stem and leaves a name
with a leading dot, which a second application strips. -/
theorem sanitize_filename_not_idempotent :
    sanitize_filename
        (sanitize_filename ('a' :: 'b' :: '.' :: List.replicate 254 'c')) ≠
      sanitize_filename ('a' :: 'b' :: '.' :: List.replicate 254 'c') := by
  decide

/-- The replacement map of `sanitize_filename` is idempotent: `_` is not an
invalid character. -/
theorem replaceInvalid_idem (c : Char) :
    replaceInvalid (replaceInvalid c) = replaceInvalid c := by
  by_cases h : isInvalidChar c = true
  · simp only [replaceInvalid, if_pos h]
    decide
  · simp only [replaceInvalid, if_neg h]

/-- Characters of a stripped list are characters of the list. -/
theorem pyStrip_subset (l : List Char) : pyStrip l ⊆ l := by
  intro c hc
  have h1 : c ∈ List.dropWhile isStripChar l :=
    List.IsPrefix.subset
      ( List.rdropWhile_prefix isStripChar (List.dropWhile isStripChar l)) hc
  exact List.IsSuffix.subset (List.dropWhile_suffix isStripChar) h1

/-- `dropWhile` is idempotent. -/
theorem dropWhile_idem (p : Char → Bool) (l : List Char) :
    List.dropWhile p (List.dropWhile p l) = List.dropWhile p l := by
  induction l with
  | nil => rfl
  | cons a t ih =>
      rw [List.dropWhile_cons]
      by_cases h : p a = true
      · rw [if_pos h]
        exact ih
      · rw [if_neg h, List.dropWhile_cons, if_neg h]

/-- An initial segment of a `dropWhile`-stable list is `dropWhile`-stable. -/
theorem dropWhile_eq_self_of_isPre (p : Char → Bool) (m y : List Char)
    (hm : List.dropWhile p m = m) (hpre : y <+: m) :
    List.dropWhile p y = y := by
  cases y with
  | nil => rfl
  | cons a s =>
      obtain ⟨t, ht⟩ := hpre
      have ha : p a = false := by
        cases hpa : p a
        · rfl
        · exfalso
          have h1 : List.dropWhile p m = List.dropWhile p (s ++ t) := by
            rw [← ht, List.cons_append, List.dropWhile_cons, if_pos hpa]
          have h2 : (List.dropWhile p (s ++ t)).length ≤ (s ++ t).length :=
            List.IsSuffix.length_le (List.dropWhile_suffix p)
          have h4 := congrArg List.length h1
          rw [hm] at h4
          have h3 : m.length = (s ++ t).length + 1 := by
            rw [← ht]
            simp
          omega
      rw [List.dropWhile_cons, if_neg (by simp [ha])]

/-- Stripping is idempotent. -/
theorem pyStrip_idem (l : List Char) : pyStrip (pyStrip l) = pyStrip l := by
  have h1 : List.dropWhile isStripChar (pyStrip l) = pyStrip l :=
    dropWhile_eq_self_of_isPre isStripChar (List.dropWhile isStripChar l)
      (pyStrip l) (dropWhile_idem isStripChar l)
      ( List.rdropWhile_prefix isStripChar (List.dropWhile isStripChar l))
  show List.rdropWhile isStripChar
      (List.dropWhile isStripChar (pyStrip l)) = pyStrip l
  rw [h1]
  exact List.rdropWhile_idempotent isStripChar (List.dropWhile isStripChar l)

/-- C4 (amended): `sanitize_filename` is idempotent on every input on which
the truncation step does not fire — that is, whenever the stripped,
character-replaced intermediate has at most 255 characters, which holds in
particular for every input of at most 255 characters.  (On longer inputs
truncation can produce a name with a leading dot or a trailing space that a
second application strips, so full idempotence fails.) -/
theorem sanitize_filename_idem (x : List Char)
    (h : (pyStrip (x.map replaceInvalid)).length ≤ 255) :
    sanitize_filename (sanitize_filename x) = sanitize_filename x := by
  have hlen : ¬ 255 < (pyStrip (x.map replaceInvalid)).length := by omega
  have hx : sanitize_filename x =
      if pyStrip (x.map replaceInvalid) = [] then "unnamed".toList
      else pyStrip (x.map replaceInvalid) := by
    simp only [sanitize_filename, if_neg hlen]
  by_cases hemp : pyStrip (x.map replaceInvalid) = []
  · rw [hx, if_pos hemp]
    decide
  · rw [hx, if_neg hemp]
    have hmap : (pyStrip (x.map replaceInvalid)).map replaceInvalid =
        pyStrip (x.map replaceInvalid) := by
      have hfix : ∀ c ∈ pyStrip (x.map replaceInvalid),
          replaceInvalid c = c := by
        intro c hc
        have hc2 : c ∈ x.map replaceInvalid := pyStrip_subset _ hc
        obtain ⟨d, _, hd⟩ := List.mem_map.mp hc2
        rw [← hd]
        exact replaceInvalid_idem d
      rw [List.map_congr_left hfix]
      simp
    have hstrip : pyStrip (pyStrip (x.map replaceInvalid)) =
        pyStrip (x.map replaceInvalid) := pyStrip_idem _
    simp only [sanitize_filename, hmap, hstrip, if_neg hlen, if_neg hemp]

/-- Witness for C4 (amended) at a short filename. -/
theorem sanitize_filename_idem_witness :
    sanitize_filename (sanitize_filename "photo.jpg".toList) =
      sanitize_filename "photo.jpg".toList :=
  sanitize_filename_idem "photo.jpg".toList (by decide)

end OneDriveDL

namespace OneDriveDL

/-- One unfolding step of the `format_size` loop. -/
theorem sizeLoop_succ (sb fuel idx : Nat) :
    sizeLoop sb (fuel + 1) idx =
      if 1024 ^ (idx + 1) ≤ sb then sizeLoop sb fuel (idx + 1) else idx := rfl

/-- The unit index never decreases along the `format_size` loop. -/
theorem sizeLoop_ge (n : Nat) : ∀ (fuel idx : Nat), idx ≤ sizeLoop n fuel idx := by
  intro fuel
  induction fuel with
  | zero =>
      intro idx
      exact Nat.le_refl idx
  | succ fuel ih =>
      intro idx
      rw [sizeLoop_succ]
      by_cases h : 1024 ^ (idx + 1) ≤ n
      · rw [if_pos h]
        exact Nat.le_trans (Nat.le_succ idx) (ih (idx + 1))
      · rw [if_neg h]

/-- The unit index grows by at most the remaining fuel. -/
theorem sizeLoop_le_add (n : Nat) :
    ∀ (fuel idx : Nat), sizeLoop n fuel idx ≤ idx + fuel := by
  intro fuel
  induction fuel with
  | zero =>
      intro idx
      show idx ≤ idx + 0
      omega
  | succ fuel ih =>
      intro idx
      rw [sizeLoop_succ]
      by_cases h : 1024 ^ (idx + 1) ≤ n
      · rw [if_pos h]
        have h2 := ih (idx + 1)
        omega
      · rw [if_neg h]
        omega

/-- C7: `format_size 0 = "0 B"`; for `0 < n < 1024` the output is the integer
`n` followed by the unit `B`; for `n ≥ 1024` the output is a value with
exactly two decimal digits followed by one of the binary units KB, MB, GB,
TB; and `format_size` maps 1024 to "1.00 KB", 1536 to "1.50 KB" and
1024 * 1024 to "1.00 MB". -/
theorem format_size_spec (n : Nat) :
    format_size 0 = "0 B" ∧
    (0 < n → n < 1024 → format_size n = toString n ++ " " ++ "B") ∧
    (1024 ≤ n → ∃ (c : Nat) (u : String),
      u ∈ ["KB", "MB", "GB", "TB"] ∧
      format_size n =
        toString (c / 100) ++ "." ++
          String.mk [Nat.digitChar (c / 10 % 10), Nat.digitChar (c % 10)] ++
          " " ++ u ∧
      (String.mk [Nat.digitChar (c / 10 % 10), Nat.digitChar (c % 10)]).length
        = 2) ∧
    format_size 1024 = "1.00 KB" ∧ format_size 1536 = "1.50 KB" ∧
    format_size (1024 * 1024) = "1.00 MB" := by
  refine ⟨rfl, ?_, ?_, by decide, by decide, by decide⟩
  · intro h1 h2
    have hz : ¬ n = 0 := by omega
    have hloop : sizeLoop n 4 0 = 0 :=
      calc sizeLoop n 4 0 = sizeLoop n (3 + 1) 0 := rfl
        _ = if 1024 ^ (0 + 1) ≤ n then sizeLoop n 3 (0 + 1) else 0 :=
            sizeLoop_succ n 3 0
        _ = 0 := if_neg (by rw [Nat.zero_add, pow_one]; omega)
    simp [format_size, if_neg hz, hloop, sizeUnits, List.getD]
  · intro h1024
    have hz : ¬ n = 0 := by omega
    have hge : 1 ≤ sizeLoop n 4 0 := by
      have e : sizeLoop n 4 0 = sizeLoop n 3 1 :=
        calc sizeLoop n 4 0 = sizeLoop n (3 + 1) 0 := rfl
          _ = if 1024 ^ (0 + 1) ≤ n then sizeLoop n 3 (0 + 1) else 0 :=
              sizeLoop_succ n 3 0
          _ = sizeLoop n 3 1 := by
              rw [if_pos (show 1024 ^ (0 + 1) ≤ n by
                rw [Nat.zero_add, pow_one]; exact h1024)]
      rw [e]
      exact sizeLoop_ge n 3 1
    have hle4 : sizeLoop n 4 0 ≤ 4 := by
      have h4 := sizeLoop_le_add n 4 0
      omega
    have hne : ¬ sizeLoop n 4 0 = 0 := by omega
    refine ⟨roundHalfEven (100 * n) (1024 ^ sizeLoop n 4 0),
      sizeUnits.getD (sizeLoop n 4 0) "B", ?_, ?_, rfl⟩
    · have hcases : sizeLoop n 4 0 = 1 ∨ sizeLoop n 4 0 = 2 ∨
          sizeLoop n 4 0 = 3 ∨ sizeLoop n 4 0 = 4 := by omega
      rcases hcases with hc | hc | hc | hc <;> rw [hc] <;> decide
    · simp only [format_size, if_neg hz, if_neg hne, format2f]

/-- Witness for C7 at 2048 bytes. -/
theorem format_size_spec_witness :
    ∃ (c : Nat) (u : String),
      u ∈ ["KB", "MB", "GB", "TB"] ∧
      format_size 2048 =
        toString (c / 100) ++ "." ++
          String.mk [Nat.digitChar (c / 10 % 10), Nat.digitChar (c % 10)] ++
          " " ++ u ∧
      (String.mk [Nat.digitChar (c / 10 % 10), Nat.digitChar (c % 10)]).length
        = 2 :=
  (format_size_spec 2048).2.2.1 (by norm_num)

/-- Results coming out of the retry loop never carry `skipped = true`: the
skipped flag is set only by the existence check. -/
theorem retry_loop_not_skipped (mr : Nat) (events : Nat → GetEvent)
    (safe : List Char) :
    ∀ (fuel i : Nat) (fs : Option Nat) (sleeps : List Nat),
      (retry_loop mr events safe fuel i fs sleeps).result.skipped = false := by
  intro fuel
  induction fuel with
  | zero =>
      intro i fs sleeps
      rfl
  | succ fuel ih =>
      intro i fs sleeps
      cases hev : events i with
      | ok size =>
          simp [retry_loop, hev]
      | timeout w =>
          simp only [retry_loop, hev]
          split
          · exact ih (i + 1) (afterAttempt fs w) (sleeps ++ [2 ^ i])
          · rfl
      | err nm msg w =>
          simp only [retry_loop, hev]
          split
          · exact ih (i + 1) (afterAttempt fs w) (sleeps ++ [2 ^ i])
          · rfl

/-- C10: every result produced by `download_image` with `skipped = true` also
has `success = true` and `error = none`; consequently, on any result list
with the skipped-implies-success property, `get_stats` counts every skipped
item among the successful ones (`skipped ≤ successful`), computes
`downloaded` as `successful - skipped`, and includes the size of each
skipped file in `total_size`, which splits as the sizes of the skipped
results plus the sizes of the successful non-skipped ones. -/
theorem skipped_results_successful :
    (∀ (mr : Nat) (f : List Char) (file : Option Nat)
        (events : Nat → GetEvent),
      (download_image mr f file events).result.skipped = true →
      (download_image mr f file events).result.success = true ∧
      (download_image mr f file events).result.error = none) ∧
    (∀ results : List DownloadResult,
      (∀ r ∈ results, r.skipped = true → r.success = true) →
      (get_stats results).skipped ≤ (get_stats results).successful ∧
      (get_stats results).downloaded =
        (get_stats results).successful - (get_stats results).skipped ∧
      ((results.filter (fun r => r.skipped)).map (fun r => r.size)).sum +
          ((results.filter (fun r => r.success && !r.skipped)).map
            (fun r => r.size)).sum =
        (get_stats results).total_size) := by
  constructor
  · intro mr f file events h
    cases file with
    | some n => exact ⟨rfl, rfl⟩
    | none =>
        rw [show download_image mr f none events =
              retry_loop mr events (sanitize_filename f) mr 0 none [] from rfl,
          retry_loop_not_skipped mr events (sanitize_filename f) mr 0 none []]
          at h
        cases h
  · intro results hsk
    have hsum : ∀ L : List DownloadResult,
        (∀ r ∈ L, r.skipped = true → r.success = true) →
        ((L.filter (fun r => r.skipped)).map (fun r => r.size)).sum +
            ((L.filter (fun r => r.success && !r.skipped)).map
              (fun r => r.size)).sum =
          ((L.filter (fun r => r.success)).map (fun r => r.size)).sum := by
      intro L
      induction L with
      | nil =>
          intro _
          rfl
      | cons r t ih =>
          intro hall
          have ht := ih fun x hx hxs => hall x (List.mem_cons_of_mem r hx) hxs
          cases hs : r.success with
          | false =>
              cases hk : r.skipped with
              | false =>
                  simp only [List.filter_cons, hs, hk]
                  simp
                  omega
              | true =>
                  have hcon := hall r (List.mem_cons_self r t) hk
                  rw [hcon] at hs
                  cases hs
          | true =>
              cases hk : r.skipped with
              | false =>
                  simp only [List.filter_cons, hs, hk]
                  simp
                  omega
              | true =>
                  simp only [List.filter_cons, hs, hk]
                  simp
                  omega
    refine ⟨?_, rfl, ?_⟩
    · have hcount : (results.filter (fun r => r.skipped)).length ≤
          (results.filter (fun r => r.success)).length := by
        rw [← List.countP_eq_length_filter, ← List.countP_eq_length_filter]
        exact List.countP_mono_left hsk
      show ((results.filter (fun r => r.skipped)).length : Int) ≤
        ((results.filter (fun r => r.success)).length : Int)
      exact_mod_cast hcount
    · exact hsum results hsk

/-- Witness for C10: a skipped unit (pre-existing 5-byte file) and a
three-element result list. -/
theorem skipped_results_successful_witness :
    ((download_image 2 ['a'] (some 5)
          (fun _ => GetEvent.ok 1)).result.success = true ∧
      (download_image 2 ['a'] (some 5)
          (fun _ => GetEvent.ok 1)).result.error = none) ∧
    ((get_stats
          [{ filename := ['a'], success := true, size := 100 },
           { filename := ['b'], success := true, size := 50, skipped := true },
           { filename := ['c'], success := false,
             error := some "boom" }]).skipped ≤
        (get_stats
          [{ filename := ['a'], success := true, size := 100 },
           { filename := ['b'], success := true, size := 50, skipped := true },
           { filename := ['c'], success := false,
             error := some "boom" }]).successful) :=
  ⟨skipped_results_successful.1 2 ['a'] (some 5) (fun _ => GetEvent.ok 1) rfl,
    (skipped_results_successful.2
      [{ filename := ['a'], success := true, size := 100 },
       { filename := ['b'], success := true, size := 50, skipped := true },
       { filename := ['c'], success := false, error := some "boom" }]
      (by decide)).1⟩

end OneDriveDL
